import Mathlib

/-!
A shallow embedding of the concurrent task-processing core of the OSIPTEL
scraper (`src/osiptel_core.py`, `src/osiptel_worker.py`, `src/osiptel_main.py`)
and proofs about it.  Python floats are modelled as rationals, Python `set`
as `Finset`, Python `dict` (insertion-ordered) as an association list with
update-in-place/append semantics, and the file system touched by the
checkpointing code as an explicit record of path contents.
-/

namespace Osiptel

/-- Enum `TaskStatus` (`osiptel_core.py`): status of a RUC scraping task. -/
inductive TaskStatus where
  | pending
  | in_progress
  | success
  | failed
  | skipped
deriving DecidableEq, Repr

/-- Enum `ErrorType` (`osiptel_core.py`): the closed error taxonomy. -/
inductive ErrorType where
  | timeout
  | proxy_error
  | page_load_error
  | selector_not_found
  | data_extraction_error
  | browser_crash
  | rate_limited
  | unknown
deriving DecidableEq, Repr

/-- The `.value` string of an `ErrorType` member, as in the Python enum. -/
def ErrorType.value : ErrorType → String
  | .timeout => "timeout"
  | .proxy_error => "proxy_error"
  | .page_load_error => "page_load_error"
  | .selector_not_found => "selector_not_found"
  | .data_extraction_error => "data_extraction_error"
  | .browser_crash => "browser_crash"
  | .rate_limited => "rate_limited"
  | .unknown => "unknown"

/-- Dataclass `PhoneLine` (`osiptel_core.py`): one extracted row. -/
structure PhoneLine where
  modalidad : String
  numero : String
  operadora : String
deriving DecidableEq, Repr

/-- Dataclass `RUCResult` (`osiptel_core.py`): terminal outcome of one task.
The `timestamp` field of the dataclass (creation wall-clock time) is kept as
an uninterpreted string. -/
structure RUCResult where
  ruc : String
  status : TaskStatus
  lines : List PhoneLine := []
  error_type : Option ErrorType := none
  error_message : Option String := none
  attempts : Nat := 0
  timestamp : String := ""
  duration_seconds : ℚ := 0
deriving DecidableEq, Repr

/-- Property `RUCResult.success`: `self.status == TaskStatus.SUCCESS`. -/
def RUCResult.success (r : RUCResult) : Bool :=
  r.status = TaskStatus.success

/-- Property `RUCResult.line_count`: `len(self.lines)`. -/
def RUCResult.line_count (r : RUCResult) : Nat :=
  r.lines.length

/-- Python `d.get(k, default)` on an insertion-ordered association list. -/
def dictGetD {β : Type} (l : List (String × β)) (k : String) (d : β) : β :=
  match l.find? (fun p => p.1 = k) with
  | some p => p.2
  | none => d

/-- Python `d[k] = v` on an insertion-ordered association list: replace in
place when the key exists, append otherwise. -/
def dictSet {β : Type} (l : List (String × β)) (k : String) (v : β) :
    List (String × β) :=
  if l.any (fun p => p.1 = k) then
    l.map (fun p => if p.1 = k then (k, v) else p)
  else l ++ [(k, v)]

/-- Dataclass `Statistics` (`osiptel_core.py`).  `errors_by_type` is the
Python dict, modelled as an insertion-ordered association list; the two
`datetime` fields are kept as uninterpreted optional strings. -/
structure Statistics where
  total_rucs : Nat := 0
  processed : Nat := 0
  successful : Nat := 0
  failed : Nat := 0
  total_lines_found : Nat := 0
  estimated_bandwidth_kb : ℚ := 0
  start_time : Option String := none
  end_time : Option String := none
  errors_by_type : List (String × Nat) := []
  total_retries : Nat := 0
deriving DecidableEq, Repr

/-- Method `Statistics.update` (`osiptel_core.py` lines 310-324).  Note that
Python's `max(0, result.attempts - 1)` coincides with truncated subtraction
on naturals. -/
def Statistics.update (s : Statistics) (result : RUCResult)
    (estimated_kb : ℚ) : Statistics :=
  let s1 := { s with
    processed := s.processed + 1,
    estimated_bandwidth_kb := s.estimated_bandwidth_kb + estimated_kb }
  let s2 :=
    if result.success then
      { s1 with
        successful := s1.successful + 1,
        total_lines_found := s1.total_lines_found + result.line_count }
    else
      let s1f := { s1 with failed := s1.failed + 1 }
      match result.error_type with
      | some et =>
          let bumped := dictGetD s1f.errors_by_type et.value 0 + 1
          { s1f with errors_by_type := dictSet s1f.errors_by_type et.value bumped }
      | none => s1f
  { s2 with total_retries := s2.total_retries + (result.attempts - 1) }

/-- Dataclass `ScraperConfig` (`osiptel_core.py`): the configuration fields
consumed by the task-processing core, with the source's default values. -/
structure ScraperConfig where
  max_workers : Nat := 12
  max_bandwidth_mb : Nat := 9700
  estimated_kb_per_ruc : ℚ := 550
  min_delay_between_requests : ℚ := 3 / 2
  max_delay_between_requests : ℚ := 4
  delay_after_error : ℚ := 3
  max_retries : Nat := 3
  retry_base_delay : ℚ := 5
  retry_max_delay : ℚ := 30
  retry_multiplier : ℚ := 2
  checkpoint_interval : Nat := 25
  batch_save_size : Nat := 1000
deriving DecidableEq, Repr

/-- The default configuration (all dataclass defaults). -/
def defaultConfig : ScraperConfig := {}

/-- One entry of `ProgressManager.failed_rucs` (`osiptel_core.py` lines
477-482): the dict
`{error_type: ..., error_message: ..., attempts: ...}`. -/
structure FailureInfo where
  error_type : String
  error_message : Option String
  attempts : Nat
deriving DecidableEq, Repr

/-- The mutable state of `ProgressManager` (`osiptel_core.py`).  The Python
`set` `processed_rucs` is a `Finset`; the dict `failed_rucs` is an
insertion-ordered association list.  The config is carried along as in
`__init__`. -/
structure ProgressManager where
  config : ScraperConfig := {}
  processed_rucs : Finset String := ∅
  failed_rucs : List (String × FailureInfo) := []
  statistics : Statistics := {}

/-- Method `ProgressManager.add_result` (`osiptel_core.py` lines 472-482): insert
the id into `processed_rucs`, update statistics, and on a non-success record
the failure-ledger entry. -/
def ProgressManager.add_result (m : ProgressManager) (result : RUCResult)
    (estimated_kb : ℚ) : ProgressManager :=
  let m1 := { m with
    processed_rucs := insert result.ruc m.processed_rucs,
    statistics := m.statistics.update result estimated_kb }
  if result.success then m1
  else
    let info : FailureInfo :=
      { error_type :=
          match result.error_type with
          | some et => et.value
          | none => "unknown",
        error_message := result.error_message,
        attempts := result.attempts }
    { m1 with failed_rucs := dictSet m1.failed_rucs result.ruc info }

/-- Method `ProgressManager.get_pending_rucs` (`osiptel_core.py` lines 484-486):
order-preserving filter of the ids not yet processed. -/
def ProgressManager.get_pending_rucs (m : ProgressManager)
    (all_rucs : List String) : List String :=
  all_rucs.filter (fun ruc => ruc ∉ m.processed_rucs)

/-- Method `ProgressManager.is_bandwidth_exceeded` (`osiptel_core.py` lines
488-491): the body is just `return False` (the bandwidth-limit check was
disabled in the source). -/
def ProgressManager.is_bandwidth_exceeded (_m : ProgressManager) : Bool :=
  false

/-- Rendering of a rational (model of Python float formatting inside
`json.dumps`; the exact digits are irrelevant, only that the value is part
of the serialized snapshot). -/
def ratStr (q : ℚ) : String :=
  toString q.num ++ "/" ++ toString q.den

/-- Rendering of an optional string (Python `None` vs a value). -/
def optStr : Option String → String
  | some s => s
  | none => "None"

/-- Rendering of one failure-ledger entry. -/
def renderFailure (f : FailureInfo) : String :=
  f.error_type ++ ":" ++ optStr f.error_message ++ ":" ++ toString f.attempts

/-- Rendering of the failure ledger in insertion order. -/
def renderLedger (l : List (String × FailureInfo)) : String :=
  String.intercalate ";" (l.map (fun p => p.1 ++ "=" ++ renderFailure p.2))

/-- Rendering of the `errors_by_type` dict in insertion order. -/
def renderErrorCounts (l : List (String × Nat)) : String :=
  String.intercalate ";" (l.map (fun p => p.1 ++ "=" ++ toString p.2))

/-- Rendering of `Statistics.to_dict()`: every modelled counter appears in
the snapshot. -/
def renderStatistics (s : Statistics) : String :=
  String.intercalate "," [toString s.total_rucs, toString s.processed,
    toString s.successful, toString s.failed, toString s.total_lines_found,
    ratStr s.estimated_bandwidth_kb, renderErrorCounts s.errors_by_type,
    toString s.total_retries, optStr s.start_time, optStr s.end_time]

/-- The serialized snapshot built by `ProgressManager.save` (`osiptel_core.py`
lines 457-462): the dict
`data = ... processed_rucs, failed_rucs, statistics, last_save ...` rendered
to one string (model of `json.dumps(data)`; the Python `set` is rendered in
sorted order since `list(set)` fixes no order). -/
def serializeProgress (m : ProgressManager) (now : String) : String :=
  "processed_rucs=[" ++
    String.intercalate "," (m.processed_rucs.sort (· ≤ ·)) ++
    "];failed_rucs=[" ++ renderLedger m.failed_rucs ++
    "];statistics=[" ++ renderStatistics m.statistics ++
    "];last_save=" ++ now

/-- The two disk paths `save` touches: the canonical progress file and the
temporary file `progress_path + '.tmp'`.  `none` models an absent file. -/
structure FileState where
  canonical : Option String := none
  temp : Option String := none
deriving DecidableEq, Repr

/-- First step of `ProgressManager.save` (`osiptel_core.py` lines 464-467):
write the full serialized snapshot to the temporary path.  The canonical
path is untouched. -/
def save_write_temp (m : ProgressManager) (now : String) (fs : FileState) :
    FileState :=
  { fs with temp := some (serializeProgress m now) }

/-- Second step of `ProgressManager.save` (`osiptel_core.py` line 470):
`os.replace(temp_path, self.progress_path)` — a single atomic rename of the
temporary file onto the canonical path. -/
def os_replace (fs : FileState) : FileState :=
  match fs.temp with
  | some s => { canonical := some s, temp := none }
  | none => fs

/-- Method `ProgressManager.save` (`osiptel_core.py` lines 454-470) run to
completion.  The `async with self._lock` serializes saves, so a save is
modelled as one sequential function on the file state. -/
def ProgressManager.save (m : ProgressManager) (now : String)
    (fs : FileState) : FileState :=
  os_replace (save_write_temp m now fs)

/-- Run of `save` interrupted by a process kill after `k` of its 2 file-system
steps (`k = 0`: killed before the temp write took effect; `k = 1`: killed
between the temp write and the rename; `k ≥ 2`: save completed). -/
def saveUpTo (m : ProgressManager) (now : String) (fs : FileState) :
    Nat → FileState
  | 0 => fs
  | 1 => save_write_temp m now fs
  | _ + 2 => m.save now fs

/-- Python `value.replace(chr(34), chr(34)+chr(34))`: double every double
quote, character by character. -/
def escapeQuotes : List Char → List Char
  | [] => []
  | c :: cs =>
    if c = '"' then '"' :: '"' :: escapeQuotes cs else c :: escapeQuotes cs

/-- Method `ResultsWriter._escape_csv` (`osiptel_core.py` lines 703-707): quote the
field when it contains a comma, a double quote or a newline, doubling inner
quotes. -/
def escape_csv (value : String) : String :=
  if ',' ∈ value.data ∨ '"' ∈ value.data ∨ '\n' ∈ value.data then
    "\"" ++ String.mk (escapeQuotes value.data) ++ "\""
  else value

/-- Method `ResultsWriter._generate_header` (`osiptel_core.py` lines 540-549):
`['RUC']` followed by three indexed column names for each `i` in
`1..max_lines`. -/
def generate_header (max_lines : Nat) : List String :=
  "RUC" :: (List.range max_lines).flatMap (fun i =>
    ["Modalidad_" ++ toString (i + 1),
     "Numero_Telefonico_" ++ toString (i + 1),
     "Empresa_Operadora_" ++ toString (i + 1)])

/-- The field triple at one column index of the row built inline by
`ResultsWriter.write_result` (`osiptel_core.py` lines 561-584): `row_data`
holds the fields of `result.lines` keyed by index starting at 1, and the row
reads indices `1..100` back, escaping each value and defaulting to `''`.
Index `i + 1` of the Python loop is position `i` of `result.lines`. -/
def line_fields (result : RUCResult) (i : Nat) : List String :=
  match result.lines.get? i with
  | some l => [escape_csv l.modalidad, escape_csv l.numero,
               escape_csv l.operadora]
  | none => [escape_csv "", escape_csv "", escape_csv ""]

/-- The full row: the id column followed by the 100 indexed field
triples. -/
def row_values (result : RUCResult) : List String :=
  result.ruc :: (List.range 100).flatMap (line_fields result)

/-- One entry of `ResultsWriter._batch_times` (`osiptel_core.py` lines
635-646), restricted to its count fields; the wall-clock timing strings are
outside the model. -/
structure BatchInfo where
  batch_number : Nat
  rucs_count : Nat
  successful_count : Nat
  total_lines : Nat
deriving DecidableEq, Repr

/-- The mutable state of `ResultsWriter` (`osiptel_core.py`).  `main_rows`
is the sequence of data rows appended to the main incremental CSV (the
header line is tracked separately by `header_written`); `batches` is the
sequence of batch files written by `_save_batch`, each as its list of
results. -/
structure WriterState where
  header_written : Bool := false
  max_lines : Nat := 0
  main_rows : List (List String) := []
  batch_results : List RUCResult := []
  batches : List (List RUCResult) := []
  batch_times : List BatchInfo := []
  total_saved : Nat := 0
  batch_number : Nat := 0
deriving DecidableEq, Repr

/-- Method `ResultsWriter._save_batch` (`osiptel_core.py` lines 592-660): an empty
buffer is a no-op; otherwise the whole buffer becomes one new batch file, a
timing entry is recorded, totals advance, and the buffer resets. -/
def save_batch (s : WriterState) : WriterState :=
  if s.batch_results = [] then s
  else
    let n := s.batch_number + 1
    { s with
      batch_number := n,
      batches := s.batches ++ [s.batch_results],
      batch_times := s.batch_times ++
        [{ batch_number := n,
           rucs_count := s.batch_results.length,
           successful_count := (s.batch_results.filter
             (fun r => r.success)).length,
           total_lines := (s.batch_results.map
             (fun r => r.line_count)).sum }],
      total_saved := s.total_saved + s.batch_results.length,
      batch_results := [] }

/-- Method `ResultsWriter.write_result` (`osiptel_core.py` lines 551-590): set the
fixed 100-column budget, append the result to the in-memory batch buffer,
append one row (plus the header on first write) to the main file, then
flush a batch exactly when the buffer has reached
`config.batch_save_size`. -/
def write_result (cfg : ScraperConfig) (s : WriterState)
    (result : RUCResult) : WriterState :=
  let s1 := { s with
    max_lines := 100,
    batch_results := s.batch_results ++ [result],
    header_written := true,
    main_rows := s.main_rows ++ [row_values result] }
  if cfg.batch_save_size ≤ s1.batch_results.length then save_batch s1 else s1

/-- Method `ResultsWriter.finalize` (`osiptel_core.py` lines 690-701): flush any
non-empty remainder as one final batch (`_save_batch` already guards the
empty buffer; the final timing-report rewrite touches no modelled state). -/
def finalize (s : WriterState) : WriterState :=
  save_batch s

/-- The outcome the retry loop of `Worker._process_ruc_with_retries`
observes on one attempt: either `scrape_ruc` returned a result (success or
failure — `scrape_ruc` catches its own exceptions), or the attempt raised
out of `new_page`/`scrape_ruc` into the worker's `except` block. -/
inductive AttemptOutcome where
  | scraped (r : RUCResult)
  | raised (msg : String)

/-- Python `str.lower()` as a character list (ASCII case mapping, which is
all the error keywords need). -/
def strLower (s : String) : List Char :=
  s.data.map Char.toLower

/-- Python slicing `s[:n]` on a string. -/
def strTake (s : String) (n : Nat) : String :=
  String.mk (s.data.take n)

/-- The error classification in the `except` block of
`Worker._process_ruc_with_retries` (`osiptel_worker.py` lines 606-614):
substring tests on the lower-cased exception message. -/
def classify_exception (msg : String) : ErrorType :=
  let m := strLower msg
  if "closed".toList <:+: m ∨ "target".toList <:+: m then
    ErrorType.browser_crash
  else if "timeout".toList <:+: m then ErrorType.timeout
  else ErrorType.unknown

/-- The retry loop of `Worker._process_ruc_with_retries` (`osiptel_worker.py`
lines 569-646), recursing on the number of remaining loop iterations
(`remaining = max_retries - attempt + 1`).  A successful scrape returns
immediately with `attempts := attempt`; a failed scrape or a raised
exception records `last_result` and continues; falling out of the loop
forces `last_result.attempts = max_retries` and returns it.  `none` models
the `AttributeError` Python would raise on `last_result = None` (loop never
ran, `max_retries = 0`). -/
def retryGo (cfg : ScraperConfig) (ruc : String)
    (outcomes : Nat → AttemptOutcome) :
    Nat → Nat → Option RUCResult → Option RUCResult
  | 0, _, last => last.map (fun r => { r with attempts := cfg.max_retries })
  | remaining + 1, attempt, _ =>
    match outcomes attempt with
    | AttemptOutcome.scraped r =>
        let r1 := { r with attempts := attempt }
        if r1.success then some r1
        else retryGo cfg ruc outcomes remaining (attempt + 1) (some r1)
    | AttemptOutcome.raised msg =>
        let r1 : RUCResult :=
          { ruc := ruc, status := TaskStatus.failed,
            error_type := some (classify_exception msg),
            error_message := some (strTake msg 500), attempts := attempt }
        retryGo cfg ruc outcomes remaining (attempt + 1) (some r1)

/-- Method `Worker._process_ruc_with_retries` (`osiptel_worker.py` lines 569-646):
the loop `for attempt in range(1, self.config.max_retries + 1)` with the
attempt outcomes supplied as an oracle. -/
def process_ruc_with_retries (cfg : ScraperConfig) (ruc : String)
    (outcomes : Nat → AttemptOutcome) : Option RUCResult :=
  retryGo cfg ruc outcomes cfg.max_retries 1 none

/-- The pre-jitter backoff delay computed in `Worker._process_ruc_with_retries`
(`osiptel_worker.py` lines 627-630):
`min(retry_base_delay * retry_multiplier ** (attempt - 1), retry_max_delay)`. -/
def backoff_delay (cfg : ScraperConfig) (attempt : Nat) : ℚ :=
  min (cfg.retry_base_delay * cfg.retry_multiplier ^ (attempt - 1))
    cfg.retry_max_delay

/-- The delay actually slept before a retry (`osiptel_worker.py` line 631):
the pre-jitter delay plus the jitter `random.uniform(0, delay * 0.3)`,
supplied here as an oracle value. -/
def retry_sleep_delay (cfg : ScraperConfig) (attempt : Nat) (jitter : ℚ) :
    ℚ :=
  backoff_delay cfg attempt + jitter

/-- The retry decision (`osiptel_worker.py` line 625): a further attempt
(and hence a backoff sleep) happens exactly when
`attempt < self.config.max_retries`. -/
def retries_again (cfg : ScraperConfig) (attempt : Nat) : Bool :=
  attempt < cfg.max_retries

/-- The decimal digit character `str(d)` for one digit. -/
def digitChar (d : Nat) : Char :=
  Char.ofNat (48 + d)

/-- Python `str(n)` for a non-negative integer, as a character list:
the base-10 digits, most significant first. -/
def natDecChars (n : Nat) : List Char :=
  if n = 0 then ['0'] else (Nat.digits 10 n).reverse.map digitChar

/-- The session token minted by `ProxyManager.get_session_id`
(`osiptel_worker.py` line 50): `f"w{worker_id}s{counter}t{timestamp}r{random_part}"`
as a character list. -/
def sessionIdChars (worker_id counter timestamp random_part : Nat) :
    List Char :=
  'w' :: (natDecChars worker_id ++ ('s' :: (natDecChars counter ++
    ('t' :: (natDecChars timestamp ++ ('r' :: natDecChars random_part))))))

/-- Method `ProxyManager.get_session_id` (`osiptel_worker.py` lines 44-50): under
the manager's lock, increment the shared counter and mint the token.  The
wall clock (`now`, reduced mod 100000 as in the source) and the random draw
are oracle inputs; the new counter and the token are returned. -/
def get_session_id (counter worker_id now rand_val : Nat) : Nat × String :=
  let c := counter + 1
  (c, String.mk (sessionIdChars worker_id c (now % 100000) rand_val))

/-- The shared counter after `n` calls to `get_session_id` in one run:
call `k` draws its `(worker_id, now, rand)` triple from the oracle
`inputs k`.  The lock makes the calls a single interleaved sequence. -/
def runCounter (inputs : Nat → Nat × Nat × Nat) (c0 : Nat) : Nat → Nat
  | 0 => c0
  | n + 1 =>
    let p := inputs n
    (get_session_id (runCounter inputs c0 n) p.1 p.2.1 p.2.2).1

/-- The token returned by the `n`-th call to `get_session_id` in one run. -/
def runToken (inputs : Nat → Nat × Nat × Nat) (c0 : Nat) (n : Nat) :
    String :=
  let p := inputs n
  (get_session_id (runCounter inputs c0 n) p.1 p.2.1 p.2.2).2

/-- The counter component a reader recovers from a token: skip the leading
`'w'`, skip the digits of the worker id, skip the `'s'`, then read the digit
run that follows. -/
def counterPart (l : List Char) : List Char :=
  (((l.drop 1).dropWhile Char.isDigit).drop 1).takeWhile Char.isDigit

/-- One step of the result consumer `ScraperOrchestrator._process_results`
(`osiptel_main.py` lines 102-115) on one dequeued result: update progress
with the configured bandwidth estimate, and write the result to the CSV
only when `result.success`. -/
def process_one_result (cfg : ScraperConfig)
    (st : ProgressManager × WriterState) (result : RUCResult) :
    ProgressManager × WriterState :=
  let estimated_kb := cfg.estimated_kb_per_ruc
  let pm1 := st.1.add_result result estimated_kb
  let ws1 := if result.success then write_result cfg st.2 result else st.2
  (pm1, ws1)

/-- Concrete sample line for witnesses. -/
def sampleLine : PhoneLine :=
  { modalidad := "movil", numero := "999111222", operadora := "OpA" }

/-- Concrete successful result for witnesses. -/
def sampleSuccess : RUCResult :=
  { ruc := "20100038146", status := TaskStatus.success,
    lines := [sampleLine], attempts := 1 }

/-- Concrete failed result for witnesses and counterexamples. -/
def sampleFailed : RUCResult :=
  { ruc := "20100038147", status := TaskStatus.failed,
    error_type := some ErrorType.timeout,
    error_message := some "Timeout waiting for page", attempts := 3 }

/-- Sample terminal failed result produced by two raised timeouts under
`max_retries = 2` (used by witnesses). -/
def rT : RUCResult :=
  { ruc := "20123456789", status := TaskStatus.failed,
    error_type := some ErrorType.timeout,
    error_message := some "timeout boom", attempts := 2 }

/-- Config with `max_retries = 2` (used by witnesses). -/
def cfgR2 : ScraperConfig :=
  { max_retries := 2 }

/-- Config with `batch_save_size = 3` (used by witnesses). -/
def cfgB3 : ScraperConfig :=
  { batch_save_size := 3 }

/-- Attempt oracle that always raises a timeout (used by witnesses). -/
def alwaysTimeout : Nat → AttemptOutcome :=
  fun _ => AttemptOutcome.raised "timeout boom"

/-! ## Helper lemmas -/

/-- Lemma: `add_result` inserts the id into `processed_rucs` on both the success
and the failure branch. -/
theorem add_result_processed (m : ProgressManager) (r : RUCResult)
    (kb : ℚ) :
    (m.add_result r kb).processed_rucs = insert r.ruc m.processed_rucs := by
  unfold ProgressManager.add_result
  split <;> rfl

/-- Membership in `processed_rucs` after folding `add_result` over a result
list: any id already processed, or carried by some recorded result, is
processed afterwards. -/
theorem mem_processed_foldl (results : List (RUCResult × ℚ))
    (pm : ProgressManager) (id : String)
    (h : id ∈ pm.processed_rucs ∨ ∃ p ∈ results, p.1.ruc = id) :
    id ∈ (results.foldl (fun m p => m.add_result p.1 p.2) pm).processed_rucs := by
  induction results generalizing pm with
  | nil =>
    rcases h with h | ⟨p, hp, _⟩
    · exact h
    · exact absurd hp (List.not_mem_nil p)
  | cons q rest ih =>
    simp only [List.foldl_cons]
    apply ih
    rcases h with h | ⟨p, hp, hruc⟩
    · left
      rw [add_result_processed]
      exact Finset.mem_insert_of_mem h
    · rcases List.mem_cons.mp hp with rfl | hp'
      · left
        rw [add_result_processed, hruc]
        exact Finset.mem_insert_self _ _
      · exact Or.inr ⟨p, hp', hruc⟩

/-! ## The claims -/

/-- C9: `ProgressManager.is_bandwidth_exceeded` returns `False` for every
configuration and statistics state — the bandwidth limit is never enforced
as a stopping condition. -/
theorem bandwidth_never_exceeded (m : ProgressManager) :
    m.is_bandwidth_exceeded = false :=
  rfl

/-- C10: `Statistics.update` increments `processed` by exactly 1 and
exactly one of `successful`/`failed` by exactly 1 (according to the result
status), so the invariant `processed = successful + failed` is preserved by
every update. -/
theorem statistics_update_invariant (s : Statistics) (r : RUCResult)
    (kb : ℚ) :
    (s.update r kb).processed = s.processed + 1
    ∧ (r.status = TaskStatus.success →
        (s.update r kb).successful = s.successful + 1
        ∧ (s.update r kb).failed = s.failed)
    ∧ (r.status ≠ TaskStatus.success →
        (s.update r kb).failed = s.failed + 1
        ∧ (s.update r kb).successful = s.successful)
    ∧ (s.processed = s.successful + s.failed →
        (s.update r kb).processed =
          (s.update r kb).successful + (s.update r kb).failed) := by
  by_cases h : r.status = TaskStatus.success
  · simp [Statistics.update, RUCResult.success, h]
    omega
  · cases he : r.error_type <;>
      simp [Statistics.update, RUCResult.success, h, he] <;> omega

/-- C10 witness: a concrete successful update. -/
theorem statistics_update_invariant_witness :
    (Statistics.update {} sampleSuccess 550).successful =
      ({} : Statistics).successful + 1
    ∧ (Statistics.update {} sampleSuccess 550).failed =
      ({} : Statistics).failed :=
  (statistics_update_invariant {} sampleSuccess 550).2.1 rfl

/-- C3: `save()` writes the complete serialized snapshot to the temporary
path and only then atomically renames it onto the canonical path, so a
reader of the canonical path after a kill at any step boundary sees either
the previous snapshot or the new complete snapshot; a completed save leaves
exactly the new snapshot. -/
theorem atomic_checkpoint (m : ProgressManager) (now : String)
    (fs : FileState) (k : Nat) :
    ((saveUpTo m now fs k).canonical = fs.canonical ∨
      (saveUpTo m now fs k).canonical = some (serializeProgress m now))
    ∧ (m.save now fs).canonical = some (serializeProgress m now) := by
  refine ⟨?_, rfl⟩
  rcases k with _ | _ | k
  · exact Or.inl rfl
  · exact Or.inl rfl
  · exact Or.inr rfl

/-- C1: once a terminal result (success or failure alike) has been recorded
through `add_result` for every id in `S`, `get_pending_rucs S` is empty, so
a second run over the same `S` schedules no tasks. -/
theorem idempotent_resume (S : List String)
    (results : List (RUCResult × ℚ)) (pm0 : ProgressManager)
    (hcover : ∀ id ∈ S, ∃ p ∈ results, p.1.ruc = id) :
    (results.foldl (fun m p => m.add_result p.1 p.2) pm0).get_pending_rucs
      S = [] := by
  unfold ProgressManager.get_pending_rucs
  rw [List.filter_eq_nil_iff]
  intro id hid
  simp only [decide_not, Bool.not_eq_true', decide_eq_false_iff_not,
    Decidable.not_not]
  exact mem_processed_foldl results pm0 id (Or.inr (hcover id hid))

/-- C1 witness: after recording one success and one failure, both ids are
no longer pending. -/
theorem idempotent_resume_witness :
    ([(sampleSuccess, (550 : ℚ)), (sampleFailed, 550)].foldl
      (fun m p => ProgressManager.add_result m p.1 p.2)
      {}).get_pending_rucs ["20100038146", "20100038147"] = [] :=
  idempotent_resume ["20100038146", "20100038147"]
    [(sampleSuccess, 550), (sampleFailed, 550)] {} (by decide)

/-- C5 counterexample: a terminal Failed result appends no row to the main
output file — `_process_results` guards `write_result` with
`if result.success`, so the claimed "one row per completed task, Success or
Failed alike" fails on any failed result. -/
theorem failed_result_writes_no_row :
    sampleFailed.status = TaskStatus.failed
    ∧ ¬ ((process_one_result defaultConfig ({}, {}) sampleFailed).2.main_rows.length
          = ({} : WriterState).main_rows.length + 1) := by
  constructor
  · rfl
  · intro h
    simp [process_one_result, RUCResult.success, sampleFailed] at h

/-- C5 (amended): the result consumer appends exactly one row to the main
incremental output per Success result and no row for a Failed result,
regardless of batching. -/
theorem one_row_per_success (cfg : ScraperConfig)
    (st : ProgressManager × WriterState) (r : RUCResult) :
    (process_one_result cfg st r).2.main_rows.length =
      st.2.main_rows.length +
        (if r.status = TaskStatus.success then 1 else 0) := by
  by_cases h : r.status = TaskStatus.success
  · have hs : r.success = true := by simp [RUCResult.success, h]
    simp only [process_one_result, hs, if_true, write_result, h]
    split
    · unfold save_batch
      split <;> simp
    · simp
  · simp [process_one_result, RUCResult.success, h]

/-- C2: for `1 ≤ attempt < max_retries` the sleep before the next retry is
the capped exponential backoff plus the jitter drawn from
`[0, 0.3 * delay]`; the pre-jitter delay is non-decreasing in the attempt
(for a multiplier ≥ 1 and non-negative base delay, as configured) and never
exceeds `retry_max_delay`; no further retry happens once
`attempt = max_retries`. -/
theorem retry_backoff (cfg : ScraperConfig) (a : Nat) (j : ℚ)
    (hbase : 0 ≤ cfg.retry_base_delay) (hmult : 1 ≤ cfg.retry_multiplier)
    (ha1 : 1 ≤ a) (ha2 : a < cfg.max_retries)
    (_hj0 : 0 ≤ j) (_hj1 : j ≤ 3 / 10 * backoff_delay cfg a) :
    retry_sleep_delay cfg a j =
      min (cfg.retry_base_delay * cfg.retry_multiplier ^ (a - 1))
        cfg.retry_max_delay + j
    ∧ backoff_delay cfg a ≤ backoff_delay cfg (a + 1)
    ∧ backoff_delay cfg a ≤ cfg.retry_max_delay
    ∧ retries_again cfg a = true
    ∧ retries_again cfg cfg.max_retries = false := by
  refine ⟨rfl, ?_, min_le_right _ _, ?_, ?_⟩
  · unfold backoff_delay
    apply min_le_min _ le_rfl
    apply mul_le_mul_of_nonneg_left _ hbase
    apply pow_le_pow_right₀ hmult
    omega
  · simpa [retries_again] using ha2
  · simp [retries_again]

/-- C2 witness: default config, first attempt, zero jitter. -/
theorem retry_backoff_witness :
    backoff_delay defaultConfig 1 ≤ backoff_delay defaultConfig 2
    ∧ retries_again defaultConfig 1 = true := by
  have h := retry_backoff defaultConfig 1 0 (by norm_num [defaultConfig])
    (by norm_num [defaultConfig]) (by norm_num)
    (by norm_num [defaultConfig]) (by norm_num)
    (by norm_num [backoff_delay, defaultConfig])
  exact ⟨h.2.1, h.2.2.2.1⟩

/-- Behaviour of `write_result` when the appended result fills the buffer to the batch
size: the buffer flushes into one new batch file. -/
theorem write_result_flush (cfg : ScraperConfig) (s : WriterState)
    (r : RUCResult) (h : cfg.batch_save_size ≤ s.batch_results.length + 1) :
    (write_result cfg s r).batch_results = []
    ∧ (write_result cfg s r).batches =
        s.batches ++ [s.batch_results ++ [r]]
    ∧ (write_result cfg s r).batch_number = s.batch_number + 1 := by
  unfold write_result save_batch
  simp [h]

/-- Behaviour of `write_result` when the buffer stays below the batch size: no flush. -/
theorem write_result_noflush (cfg : ScraperConfig) (s : WriterState)
    (r : RUCResult)
    (h : ¬ cfg.batch_save_size ≤ s.batch_results.length + 1) :
    (write_result cfg s r).batch_results = s.batch_results ++ [r]
    ∧ (write_result cfg s r).batches = s.batches
    ∧ (write_result cfg s r).batch_number = s.batch_number := by
  unfold write_result
  simp [h]

/-- Invariant of folding `write_result` over a result list: all flushed
batches have exactly the batch size, and the buffer and batch counts follow
the division of the number of processed results by the batch size. -/
theorem foldl_write_result_spec (cfg : ScraperConfig)
    (hB : 0 < cfg.batch_save_size) (rs : List RUCResult) :
    ∀ s : WriterState,
      s.batch_results.length < cfg.batch_save_size →
      (∀ l ∈ s.batches, l.length = cfg.batch_save_size) →
      (∀ l ∈ (rs.foldl (write_result cfg) s).batches,
          l.length = cfg.batch_save_size)
      ∧ (rs.foldl (write_result cfg) s).batch_results.length =
          (s.batch_results.length + rs.length) % cfg.batch_save_size
      ∧ (rs.foldl (write_result cfg) s).batches.length =
          s.batches.length +
            (s.batch_results.length + rs.length) / cfg.batch_save_size := by
  induction rs with
  | nil =>
    intro s hlen hall
    simp only [List.foldl_nil, List.length_nil, Nat.add_zero]
    exact ⟨hall, (Nat.mod_eq_of_lt hlen).symm,
      by simp [Nat.div_eq_of_lt hlen]⟩
  | cons r rest ih =>
    intro s hlen hall
    simp only [List.foldl_cons, List.length_cons]
    by_cases hflush : cfg.batch_save_size ≤ s.batch_results.length + 1
    · have hfull : s.batch_results.length + 1 = cfg.batch_save_size := by
        omega
      obtain ⟨h1, h2, h3⟩ := write_result_flush cfg s r hflush
      have hall' : ∀ l ∈ (write_result cfg s r).batches,
          l.length = cfg.batch_save_size := by
        rw [h2]
        intro l hl
        rcases List.mem_append.mp hl with hl | hl
        · exact hall l hl
        · rw [List.mem_singleton.mp hl]
          simpa using hfull
      obtain ⟨g1, g2, g3⟩ := ih (write_result cfg s r)
        (by rw [h1]; simpa using hB) hall'
      refine ⟨g1, ?_, ?_⟩
      · rw [g2, h1]
        simp only [List.length_nil, Nat.zero_add]
        have hre : s.batch_results.length + (rest.length + 1) =
            rest.length + cfg.batch_save_size := by omega
        rw [hre, Nat.add_mod_right]
      · rw [g3, h2, h1]
        simp only [List.length_nil, Nat.zero_add, List.length_append,
          List.length_singleton]
        have hre : s.batch_results.length + (rest.length + 1) =
            rest.length + cfg.batch_save_size := by omega
        rw [hre, Nat.add_div_right _ hB]
        omega
    · obtain ⟨h1, h2, h3⟩ := write_result_noflush cfg s r hflush
      obtain ⟨g1, g2, g3⟩ := ih (write_result cfg s r)
        (by rw [h1]; simp; omega) (by rw [h2]; exact hall)
      refine ⟨g1, ?_, ?_⟩
      · rw [g2, h1]
        simp only [List.length_append, List.length_singleton]
        congr 1
        omega
      · rw [g3, h2, h1]
        simp only [List.length_append, List.length_singleton]
        congr 2
        omega

/-- Ceiling division, no remainder: `(N + B - 1) / B = N / B`. -/
theorem ceil_div_of_dvd (N B : Nat) (hB : 0 < B) (h : N % B = 0) :
    (N + B - 1) / B = N / B := by
  obtain ⟨q, rfl⟩ := Nat.dvd_of_mod_eq_zero h
  rw [Nat.add_sub_assoc hB, Nat.mul_add_div hB,
    Nat.div_eq_of_lt (show B - 1 < B by omega), Nat.add_zero,
    Nat.mul_div_cancel_left _ hB]

/-- Ceiling division, with remainder: `(N + B - 1) / B = N / B + 1`. -/
theorem ceil_div_of_not_dvd (N B : Nat) (hB : 0 < B) (h : N % B ≠ 0) :
    (N + B - 1) / B = N / B + 1 := by
  obtain ⟨q, r, hqr, hr1, hrB⟩ : ∃ q r, N = B * q + r ∧ 1 ≤ r ∧ r < B :=
    ⟨N / B, N % B, (Nat.div_add_mod N B).symm,
      Nat.pos_of_ne_zero h, Nat.mod_lt _ hB⟩
  subst hqr
  have harith : ∀ T, T + r + B - 1 = T + B + (r - 1) := fun T => by omega
  rw [harith, ← Nat.mul_succ, Nat.mul_add_div hB, Nat.mul_add_div hB,
    Nat.div_eq_of_lt (show r - 1 < B by omega), Nat.div_eq_of_lt hrB]

/-- C4: appending `N` results through `write_result` and then calling
`finalize` produces exactly `⌈N / B⌉` batch files; every batch except the
last holds exactly `B` results, and the last holds `N mod B` (or `B` when
`B` divides `N`); `write_result` flushes exactly when the buffer reaches
`B`, and `finalize` flushes the non-empty remainder. -/
theorem batch_partitioning (cfg : ScraperConfig)
    (hB : 0 < cfg.batch_save_size) (rs : List RUCResult) :
    let final := finalize (rs.foldl (write_result cfg) {})
    final.batches.length =
      (rs.length + cfg.batch_save_size - 1) / cfg.batch_save_size
    ∧ (∀ l ∈ final.batches.dropLast, l.length = cfg.batch_save_size)
    ∧ (∀ l, final.batches.getLast? = some l →
        l.length = if rs.length % cfg.batch_save_size = 0 then
          cfg.batch_save_size else rs.length % cfg.batch_save_size)
    ∧ (∀ s : WriterState, ∀ r : RUCResult,
        s.batch_results.length < cfg.batch_save_size →
        ((write_result cfg s r).batch_number = s.batch_number + 1 ↔
          s.batch_results.length + 1 = cfg.batch_save_size)) := by
  intro final
  obtain ⟨g1, g2, g3⟩ := foldl_write_result_spec cfg hB rs {}
    (by simpa using hB) (by intro l hl; simp at hl)
  set t := rs.foldl (write_result cfg) ({} : WriterState) with ht
  simp only [show ({} : WriterState).batch_results = [] from rfl,
    show ({} : WriterState).batches = [] from rfl, List.length_nil,
    Nat.zero_add, List.length_nil] at g2 g3
  have hflushiff : ∀ s : WriterState, ∀ r : RUCResult,
      s.batch_results.length < cfg.batch_save_size →
      ((write_result cfg s r).batch_number = s.batch_number + 1 ↔
        s.batch_results.length + 1 = cfg.batch_save_size) := by
    intro s r hs
    by_cases hc : cfg.batch_save_size ≤ s.batch_results.length + 1
    · rw [(write_result_flush cfg s r hc).2.2]
      constructor
      · intro _; omega
      · intro _; rfl
    · rw [(write_result_noflush cfg s r hc).2.2]
      constructor
      · intro habs; omega
      · intro habs; omega
  by_cases hmod : rs.length % cfg.batch_save_size = 0
  · have hempty : t.batch_results = [] := by
      rw [← List.length_eq_zero]
      rw [g2, hmod]
    have hfin : final.batches = t.batches := by
      show (finalize t).batches = t.batches
      unfold finalize save_batch
      simp [hempty]
    refine ⟨?_, ?_, ?_, hflushiff⟩
    · rw [hfin, g3, ceil_div_of_dvd _ _ hB hmod]
    · intro l hl
      rw [hfin] at hl
      exact g1 l (List.mem_of_mem_dropLast hl)
    · intro l hl
      rw [hfin] at hl
      rw [if_pos hmod]
      exact g1 l (List.mem_of_mem_getLast? hl)
  · have hne : t.batch_results ≠ [] := by
      intro habs
      rw [habs] at g2
      simp at g2
      exact hmod g2.symm
    have hfin : final.batches = t.batches ++ [t.batch_results] := by
      show (finalize t).batches = _
      unfold finalize save_batch
      simp [hne]
    refine ⟨?_, ?_, ?_, hflushiff⟩
    · rw [hfin, List.length_append, List.length_singleton, g3,
        ceil_div_of_not_dvd _ _ hB hmod]
    · intro l hl
      rw [hfin, List.dropLast_concat] at hl
      exact g1 l hl
    · intro l hl
      rw [hfin, List.getLast?_concat] at hl
      rw [if_neg hmod, ← Option.some_inj.mp hl, g2]

/-- C4 witness: batch size 3 and 7 results give 3 batch files (the
spec's example `[3, 3, 1]`). -/
theorem batch_partitioning_witness :
    (finalize ((List.replicate 7 sampleSuccess).foldl
      (write_result cfgB3) {})).batches.length = 3 := by
  have h := (batch_partitioning cfgB3 (by decide)
    (List.replicate 7 sampleSuccess)).1
  simpa [cfgB3] using h

/-- After `d[k] = v`, looking `k` up in `d` gives `v`. -/
theorem dictGetD_dictSet {β : Type} (l : List (String × β)) (k : String)
    (v d : β) :
    dictGetD (dictSet l k v) k d = v := by
  induction l with
  | nil => simp [dictSet, dictGetD]
  | cons p l' ih =>
    by_cases hp : p.1 = k
    · simp [dictSet, dictGetD, hp]
    · by_cases ha : (l'.any fun q => decide (q.1 = k)) = true
      · simp only [dictSet, dictGetD] at ih ⊢
        simpa [hp, ha] using ih
      · simp only [dictSet, dictGetD] at ih ⊢
        simpa [hp, ha] using ih

/-- The retry loop can only return a Failed result by falling out of the
loop, where it forces `attempts = max_retries`. -/
theorem retryGo_failed (cfg : ScraperConfig) (ruc : String)
    (outcomes : Nat → AttemptOutcome) :
    ∀ (remaining attempt : Nat) (last : Option RUCResult) (r : RUCResult),
      retryGo cfg ruc outcomes remaining attempt last = some r →
      r.status = TaskStatus.failed → r.attempts = cfg.max_retries := by
  intro remaining
  induction remaining with
  | zero =>
    intro attempt last r h _hf
    cases last with
    | none => simp [retryGo] at h
    | some r0 =>
      simp only [retryGo, Option.map_some'] at h
      rw [← Option.some.inj h]
  | succ n ih =>
    intro attempt last r h hf
    rw [retryGo] at h
    cases houtcome : outcomes attempt with
    | scraped r0 =>
      rw [houtcome] at h
      simp only at h
      by_cases hs : ({ r0 with attempts := attempt } : RUCResult).success
      · rw [if_pos hs] at h
        rw [← Option.some.inj h] at hf
        simp [RUCResult.success] at hs
        simp [hs] at hf
      · rw [if_neg hs] at h
        exact ih _ _ r h hf
    | raised msg =>
      rw [houtcome] at h
      exact ih _ _ r h hf

/-- C6: a terminal Failed result out of `_process_ruc_with_retries` always
carries `attempts = max_retries`, and the failure-ledger entry written by
`add_result` for it stores exactly that exhausted attempt count together
with its error kind and message. -/
theorem exhausted_attempts_ledger (cfg : ScraperConfig) (ruc : String)
    (outcomes : Nat → AttemptOutcome) (pm : ProgressManager) (kb : ℚ)
    (r : RUCResult)
    (h : process_ruc_with_retries cfg ruc outcomes = some r)
    (hf : r.status = TaskStatus.failed) :
    r.attempts = cfg.max_retries
    ∧ dictGetD (pm.add_result r kb).failed_rucs r.ruc
        { error_type := "", error_message := none, attempts := 0 } =
      { error_type := match r.error_type with
          | some e => e.value
          | none => "unknown",
        error_message := r.error_message,
        attempts := cfg.max_retries } := by
  have hatt : r.attempts = cfg.max_retries :=
    retryGo_failed cfg ruc outcomes _ _ _ r h hf
  refine ⟨hatt, ?_⟩
  have hs : r.success = false := by simp [RUCResult.success, hf]
  unfold ProgressManager.add_result
  rw [if_neg (by simp [hs])]
  simp only []
  rw [dictGetD_dictSet, hatt]

/-- C6 witness: two raised timeouts under `max_retries = 2` give a terminal
Failed result with `attempts = 2`, recorded as such in the ledger. -/
theorem exhausted_attempts_ledger_witness :
    rT.attempts = cfgR2.max_retries
    ∧ dictGetD (ProgressManager.add_result {} rT 550).failed_rucs rT.ruc
        { error_type := "", error_message := none, attempts := 0 } =
      { error_type := match rT.error_type with
          | some e => e.value
          | none => "unknown",
        error_message := rT.error_message,
        attempts := cfgR2.max_retries } :=
  exhausted_attempts_ledger cfgR2 "20123456789" alwaysTimeout {} 550 rT
    (by decide) (by decide)

/-- Every field triple of a row has exactly three entries. -/
theorem line_fields_length (r : RUCResult) (i : Nat) :
    (line_fields r i).length = 3 := by
  unfold line_fields
  cases r.lines.get? i <;> rfl

/-- Pointwise-equal chunk functions give the same flattened row. -/
theorem flatMap_congr_mem {α β : Type} {l : List α} {f g : α → List β}
    (h : ∀ a ∈ l, f a = g a) : l.flatMap f = l.flatMap g := by
  induction l with
  | nil => rfl
  | cons a t ih =>
    rw [show (a :: t).flatMap f = f a ++ t.flatMap f from rfl,
      show (a :: t).flatMap g = g a ++ t.flatMap g from rfl,
      h a (List.mem_cons_self a t),
      ih (fun x hx => h x (List.mem_cons_of_mem a hx))]

/-- Reading three entries at offset `3 * i` of a flattened sequence of
three-entry chunks recovers chunk `i`. -/
theorem flatMap_chunk_take {β : Type} (f : Nat → List β)
    (h3 : ∀ i, (f i).length = 3) :
    ∀ (cnt start i : Nat), i < cnt →
      (((List.range' start cnt).flatMap f).drop (3 * i)).take 3 =
        f (start + i) := by
  intro cnt
  induction cnt with
  | zero => intro start i h; exact absurd h (Nat.not_lt_zero i)
  | succ c ih =>
    intro start i h
    rw [show List.range' start (c + 1) = start :: List.range' (start + 1) c
        from rfl,
      show (start :: List.range' (start + 1) c).flatMap f =
        f start ++ (List.range' (start + 1) c).flatMap f from rfl]
    cases i with
    | zero =>
      simp only [Nat.mul_zero, List.drop_zero, Nat.add_zero]
      conv_lhs => rw [show (3 : Nat) = (f start).length from (h3 start).symm]
      exact List.take_left _ _
    | succ j =>
      have hsplit : 3 * (j + 1) = (f start).length + 3 * j := by
        rw [h3 start]
        ring
      rw [hsplit, List.drop_append, ih (start + 1) j (by omega)]
      congr 1
      omega

set_option maxRecDepth 4000 in
/-- The header for the fixed 100-line budget has `1 + 3 * 100` entries. -/
theorem generate_header_length : (generate_header 100).length = 301 := by
  rfl

/-- C7: every row has exactly `1 + 3 * 100 = 301` logical fields, matching
the header; the triple at each of the 100 column positions comes from the
corresponding line (so lines past the 100th are truncated), and positions
with no line hold empty strings (padding). -/
theorem fixed_column_budget (r : RUCResult) :
    (row_values r).length = 301
    ∧ (generate_header 100).length = 301
    ∧ row_values r = row_values { r with lines := r.lines.take 100 }
    ∧ (∀ i, i < 100 →
        ((row_values r).drop (1 + 3 * i)).take 3 = line_fields r i)
    ∧ (∀ i, r.lines.length ≤ i → line_fields r i = ["", "", ""]) := by
  refine ⟨?_, generate_header_length, ?_, ?_, ?_⟩
  · unfold row_values
    rw [List.length_cons]
    have hlen : ∀ l : List Nat, (l.flatMap (line_fields r)).length =
        3 * l.length := by
      intro l
      induction l with
      | nil => rfl
      | cons a t ih =>
        rw [show (a :: t).flatMap (line_fields r) =
            line_fields r a ++ t.flatMap (line_fields r) from rfl]
        simp [List.length_append, line_fields_length, ih]
        ring
    rw [hlen, List.length_range]
  · unfold row_values
    refine congrArg _ (flatMap_congr_mem ?_)
    intro i hi
    have hi' : i < 100 := List.mem_range.mp hi
    unfold line_fields
    rw [show ({ r with lines := r.lines.take 100 } : RUCResult).lines =
        r.lines.take 100 from rfl, List.get?_take hi']
  · intro i hi
    unfold row_values
    rw [Nat.add_comm 1 (3 * i), List.drop_succ_cons,
      List.range_eq_range',
      flatMap_chunk_take (line_fields r) (line_fields_length r) 100 0 i hi,
      Nat.zero_add]
  · intro i hi
    unfold line_fields
    rw [List.get?_eq_none.mpr hi]
    rfl

/-- C7 witness: the first field triple of a concrete row. -/
theorem fixed_column_budget_witness :
    ((row_values sampleSuccess).drop 1).take 3 =
      ["movil", "999111222", "OpA"] := by
  have h := (fixed_column_budget sampleSuccess).2.2.2.1 0 (by omega)
  simp only [Nat.mul_zero, Nat.add_zero] at h
  rw [h]
  decide

/-- Digit characters are digits. -/
theorem digitChar_isDigit (d : Nat) (hd : d < 10) :
    (digitChar d).isDigit = true := by
  interval_cases d <;> decide

/-- Every character of the decimal rendering of a natural is a digit. -/
theorem natDecChars_digit (n : Nat) :
    ∀ c ∈ natDecChars n, c.isDigit = true := by
  intro c hc
  unfold natDecChars at hc
  by_cases hn : n = 0
  · rw [if_pos hn] at hc
    rw [List.mem_singleton.mp hc]
    decide
  · rw [if_neg hn] at hc
    obtain ⟨d, hd, rfl⟩ := List.mem_map.mp hc
    exact digitChar_isDigit d
      (Nat.digits_lt_base (by norm_num) (List.mem_reverse.mp hd))

/-- Lemma: `takeWhile`/`dropWhile` split a list at the first character failing the
predicate. -/
theorem takeWhile_append_not (p : Char → Bool) (A : List Char) (b : Char)
    (rest : List Char) (hA : ∀ a ∈ A, p a = true) (hb : p b = false) :
    ((A ++ b :: rest).takeWhile p = A)
    ∧ ((A ++ b :: rest).dropWhile p = b :: rest) := by
  induction A with
  | nil => simp [List.takeWhile_cons, List.dropWhile_cons, hb]
  | cons a A' ih =>
    have hpa := hA a (List.mem_cons_self a A')
    have ih' := ih (fun x hx => hA x (List.mem_cons_of_mem a hx))
    simp [List.takeWhile_cons, List.dropWhile_cons, hpa, ih'.1, ih'.2]

/-- Parsing a session token between its `'s'` and `'t'` separators recovers
the decimal rendering of the counter. -/
theorem counterPart_sessionId (w c t r : Nat) :
    counterPart (sessionIdChars w c t r) = natDecChars c := by
  unfold counterPart sessionIdChars
  rw [show ('w' :: (natDecChars w ++ ('s' :: (natDecChars c ++
      ('t' :: (natDecChars t ++ ('r' :: natDecChars r))))))).drop 1 =
      natDecChars w ++ ('s' :: (natDecChars c ++
      ('t' :: (natDecChars t ++ ('r' :: natDecChars r))))) from rfl]
  rw [(takeWhile_append_not Char.isDigit (natDecChars w) 's' _
      (natDecChars_digit w) (by decide)).2]
  rw [show ('s' :: (natDecChars c ++ ('t' :: (natDecChars t ++
      ('r' :: natDecChars r))))).drop 1 = natDecChars c ++
      ('t' :: (natDecChars t ++ ('r' :: natDecChars r))) from rfl]
  exact (takeWhile_append_not Char.isDigit (natDecChars c) 't' _
      (natDecChars_digit c) (by decide)).1

/-- Lemma: `digitChar` is injective on digits. -/
theorem digitChar_inj :
    ∀ d1, d1 < 10 → ∀ d2, d2 < 10 → digitChar d1 = digitChar d2 →
      d1 = d2 := by
  intro d1 h1 d2 h2
  interval_cases d1 <;> interval_cases d2 <;> decide

/-- Mapping `digitChar` over digit lists is injective. -/
theorem map_digitChar_inj :
    ∀ l1 l2 : List Nat, (∀ d ∈ l1, d < 10) → (∀ d ∈ l2, d < 10) →
      l1.map digitChar = l2.map digitChar → l1 = l2 := by
  intro l1
  induction l1 with
  | nil =>
    intro l2 _ _ h
    cases l2 with
    | nil => rfl
    | cons e u => simp at h
  | cons d t ih =>
    intro l2 h1 h2 h
    cases l2 with
    | nil => simp at h
    | cons e u =>
      simp only [List.map_cons, List.cons.injEq] at h
      rw [digitChar_inj d (h1 d (List.mem_cons_self d t)) e
          (h2 e (List.mem_cons_self e u)) h.1,
        ih u (fun x hx => h1 x (List.mem_cons_of_mem d hx))
          (fun x hx => h2 x (List.mem_cons_of_mem e hx)) h.2]

/-- The decimal rendering is injective. -/
theorem natDecChars_inj (m n : Nat) (h : natDecChars m = natDecChars n) :
    m = n := by
  have hdig : ∀ k : Nat, k ≠ 0 → natDecChars k ≠ ['0'] := by
    intro k hk habs
    unfold natDecChars at habs
    rw [if_neg hk] at habs
    have hne : Nat.digits 10 k ≠ [] :=
      Nat.digits_ne_nil_iff_ne_zero.mpr hk
    have hlen : (Nat.digits 10 k).length = 1 := by
      have := congrArg List.length habs
      simpa using this
    obtain ⟨d, hd⟩ := List.length_eq_one.mp hlen
    rw [hd] at habs
    simp only [List.reverse_singleton, List.map_cons, List.map_nil] at habs
    have hd10 : d < 10 :=
      Nat.digits_lt_base (by norm_num) (hd ▸ List.mem_singleton_self d)
    have hd0 : d = 0 := by
      apply digitChar_inj d hd10 0 (by norm_num)
      rw [List.cons.injEq] at habs
      exact habs.1.trans (by decide)
    have hlast := Nat.getLast_digit_ne_zero 10 hk
    have hsome : (Nat.digits 10 k).getLast? = some d := by
      rw [hd]
      rfl
    rw [List.getLast?_eq_getLast _ hne, Option.some_inj] at hsome
    rw [hsome, hd0] at hlast
    exact hlast rfl
  by_cases hm : m = 0 <;> by_cases hn : n = 0
  · rw [hm, hn]
  · exfalso
    apply hdig n hn
    rw [← h]
    unfold natDecChars
    rw [if_pos hm]
  · exfalso
    apply hdig m hm
    rw [h]
    unfold natDecChars
    rw [if_pos hn]
  · unfold natDecChars at h
    rw [if_neg hm, if_neg hn] at h
    have hrev := map_digitChar_inj _ _
      (fun d hd => Nat.digits_lt_base (by norm_num) (List.mem_reverse.mp hd))
      (fun d hd => Nat.digits_lt_base (by norm_num) (List.mem_reverse.mp hd))
      h
    have hdigits := List.reverse_injective hrev
    calc m = Nat.ofDigits 10 (Nat.digits 10 m) :=
        (Nat.ofDigits_digits 10 m).symm
      _ = Nat.ofDigits 10 (Nat.digits 10 n) := by rw [hdigits]
      _ = n := Nat.ofDigits_digits 10 n

/-- Distinct counters give distinct session tokens. -/
theorem sessionId_counter_inj (w1 c1 t1 r1 w2 c2 t2 r2 : Nat)
    (h : sessionIdChars w1 c1 t1 r1 = sessionIdChars w2 c2 t2 r2) :
    c1 = c2 := by
  have hcp := congrArg counterPart h
  rw [counterPart_sessionId, counterPart_sessionId] at hcp
  exact natDecChars_inj _ _ hcp

/-- The shared counter after `n` calls is the initial counter plus `n`. -/
theorem runCounter_eq (inputs : Nat → Nat × Nat × Nat) (c0 : Nat) :
    ∀ n, runCounter inputs c0 n = c0 + n := by
  intro n
  induction n with
  | zero => rfl
  | succ k ih =>
    show (get_session_id (runCounter inputs c0 k) _ _ _).1 = c0 + (k + 1)
    simp [get_session_id, ih, Nat.add_assoc]

/-- C8: any two distinct calls to `get_session_id` in one run return
distinct tokens — the shared counter strictly increases under the lock and
the token format encodes the counter unambiguously between its non-digit
separators. -/
theorem session_token_unique (inputs : Nat → Nat × Nat × Nat) (c0 : Nat)
    (i j : Nat) (hij : i ≠ j) :
    runToken inputs c0 i ≠ runToken inputs c0 j := by
  intro h
  unfold runToken get_session_id at h
  simp only at h
  have hdata := congrArg String.data h
  simp only [String.data] at hdata
  have hc := sessionId_counter_inj _ _ _ _ _ _ _ _ hdata
  rw [runCounter_eq, runCounter_eq] at hc
  omega

/-- C8 witness: the first two calls of a concrete run return different
tokens. -/
theorem session_token_unique_witness :
    runToken (fun _ => (0, 0, 12345)) 0 0 ≠
      runToken (fun _ => (0, 0, 12345)) 0 1 :=
  session_token_unique (fun _ => (0, 0, 12345)) 0 0 1 (by omega)

end Osiptel
